import Mathlib

/-!
# Verification of the financial-data extraction and aggregation pipeline

A shallow embedding, in Lean 4, of the core pipeline of the repository's
backend (`app/main_postgres.py`): period detection from filenames
(`detect_period_from_filename`), the store/period extractor and summary
reconciler (`extract_financial_data_to_summaries`), the bulk rebuild
endpoint (`sync_financial_summaries`), and the dashboard correlation
computation from `get_dashboard_charts_data`.

Python floats are modelled as exact rationals (`ℚ`), the correlation
coefficient as an exact real.  JSON cell values are modelled by the
inductive type `CellValue`; a spreadsheet row (a Python dict) is an
association list of column name to value, in insertion order.  The
SQLAlchemy session is modelled as an explicit `DBState` record passed
through the functions.  `app/database.py` configures the session with
`autoflush=False`, so a query inside the save loop runs against the
table as it stood when the call began: inserts pending from earlier
iterations of the same loop are invisible to it (same-key batch entries
therefore insert duplicate rows — `monthly_summaries` has no unique
constraint on `(store_id, period)`), while an update reaches the first
matching stored row through the identity map.  The save-loop fold
mirrors this by testing existence against the call-start table and
updating in the evolving one.
-/

/-! ## String helpers

Python string primitives (`in`, `.upper()`, `.lower()`, `.strip()`,
`.replace(" ", "_")`) re-implemented over character lists so that the
kernel can evaluate them.  Case mapping is ASCII, as in the source's
data (concept keywords and store names are plain ASCII).
-/

/-- ASCII uppercase of one character, as Python `str.upper` acts on ASCII. -/
def charUp (c : Char) : Char := if 'a' ≤ c ∧ c ≤ 'z' then Char.ofNat (c.toNat - 32) else c

/-- ASCII lowercase of one character. -/
def charLow (c : Char) : Char := if 'A' ≤ c ∧ c ≤ 'Z' then Char.ofNat (c.toNat + 32) else c

/-- Python `s.upper()` (ASCII fragment). -/
def pyUpper (s : String) : String := String.mk (s.toList.map charUp)

/-- Python `s.lower()` (ASCII fragment). -/
def pyLower (s : String) : String := String.mk (s.toList.map charLow)

/-- Whitespace test used by Python `str.strip` and the `\s` regex class. -/
def isWS (c : Char) : Bool := c == ' ' || c == '\t' || c == '\n' || c == '\r'

/-- Python `s.strip()`: drop whitespace from both ends. -/
def pyStrip (s : String) : String :=
  String.mk (((s.toList.dropWhile isWS).reverse.dropWhile isWS).reverse)

/-- Whether `p` occurs as a contiguous run inside the character list. -/
def charsContain (p : List Char) : List Char → Bool
  | [] => p.isEmpty
  | c :: t => p.isPrefixOf (c :: t) || charsContain p t

/-- Python substring test `pat in hay`. -/
def strContains (hay pat : String) : Bool := charsContain pat.toList hay.toList

/-- Python `name.replace(" ", "_")` for the single-character pattern used here. -/
def replaceSpaceUnderscore (s : String) : String :=
  String.mk (s.toList.map (fun c => if c == ' ' then '_' else c))

/-! ## Cell values and rows

`raw_json["data"]` rows are dicts from column name to JSON value; after
`clean_nan_values`, a value is a string, a number (int/float, with bool
a subtype of int in Python), or null.
-/

/-- One JSON cell value of a raw row. -/
inductive CellValue where
  | vstr (s : String)
  | vnum (q : ℚ)
  | vbool (b : Bool)
  | vnull
deriving DecidableEq, Repr

/-- Python truthiness of a cell value. -/
def CellValue.truthy : CellValue → Bool
  | vstr s => !s.isEmpty
  | vnum q => q != 0
  | vbool b => b
  | vnull => false

/-- Python `isinstance(val, (int, float))` (true also for bool), with the value. -/
def CellValue.asNum : CellValue → Option ℚ
  | vnum q => some q
  | vbool b => some (if b then 1 else 0)
  | _ => none

/-- One normalized raw row: column name to value, in dict insertion order. -/
def RawRow : Type := List (String × CellValue)

instance : DecidableEq RawRow := by unfold RawRow; infer_instance

/-- Python `row.get(col_key)`: first binding of the key, if any. -/
def rawRowGet (row : RawRow) (k : String) : Option CellValue :=
  (row.find? (fun kv => kv.1 == k)).map Prod.snd

/-! ## Store/period extractor (`extract_financial_data_to_summaries`, rows 994-1066) -/

/-- The fixed header denylist `excluded_names` of the source. -/
def excluded_names : List String :=
  ["EDO RES", "EDO RESUL", "TOTAL", "COMENTARIOS", "FLETES", "PUBLICIDAD", "COLABORADORES"]

/-- The header-row test of the source: a cell becomes a store column with the
cleaned store name when its value is a truthy string other than `"%"`, the
column is not an `Unnamed` placeholder or the `_hoja` sheet tag, the cleaned
name is nonempty with more than one character, and no denylist entry occurs
inside the cleaned name. -/
def isStoreHeaderCell (key : String) (v : CellValue) : Option String :=
  match v with
  | .vstr s =>
    if s.isEmpty then none
    else if s == "%" then none
    else if strContains key "Unnamed" then none
    else if strContains key "_hoja" then none
    else
      let store_name := pyUpper (pyStrip s)
      if store_name.isEmpty then none
      else if store_name.length ≤ 1 then none
      else if excluded_names.any (fun e => strContains store_name e) then none
      else some store_name
  | _ => none

/-- The association `col_key → store_name` built from the header row (`store_columns`). -/
def store_columns (header : RawRow) : List (String × String) :=
  header.filterMap (fun kv => (isStoreHeaderCell kv.1 kv.2).map (fun n => (kv.1, n)))

/-- The transient per-store accumulator of the source (`stores_data` values). -/
structure StoreInfo where
  store_id : String
  store_name : String
  total_sales : ℚ
  cost_of_sales : ℚ
  operating_expenses : ℚ
  labor_cost : ℚ
  rent : ℚ
  utilities : ℚ
  net_profit : ℚ
  col_key : String
deriving DecidableEq, Repr

/-- The freshly seeded accumulator for one store column: all numeric fields 0,
`store_id` the store name with spaces replaced by underscores, lowercased. -/
def initStoreInfo (store_name col_key : String) : StoreInfo :=
  { store_id := pyLower (replaceSpaceUnderscore store_name)
    store_name := store_name
    total_sales := 0, cost_of_sales := 0, operating_expenses := 0
    labor_cost := 0, rent := 0, utilities := 0, net_profit := 0
    col_key := col_key }

/-- Python dict assignment `d[k] = v`: replace in place, else append. -/
def dictInsert (k : String) (v : StoreInfo) :
    List (String × StoreInfo) → List (String × StoreInfo)
  | [] => [(k, v)]
  | (k', v') :: t => if k' == k then (k, v) :: t else (k', v') :: dictInsert k v t

/-- One seeded accumulator per store column, keyed by store name (`stores_data`). -/
def initStoresData (cols : List (String × String)) : List (String × StoreInfo) :=
  cols.foldl (fun acc kv => dictInsert kv.2 (initStoreInfo kv.2 kv.1) acc) []

/-- The concept search of the source (rows 1026-1031): the first column whose
value is a truthy string, whose name has no `Unnamed` and no `_hoja`, and whose
name contains `"P"`, yields the concept, uppercased then stripped. -/
def conceptOf : RawRow → Option String
  | [] => none
  | (key, val) :: t =>
    match val with
    | .vstr s =>
      if !s.isEmpty && !(strContains key "Unnamed") && !(strContains key "_hoja")
          && strContains key "P" then
        some (pyStrip (pyUpper s))
      else conceptOf t
    | _ => conceptOf t

/-- Row-level skip (row 1037): concepts containing a sheet-name marker are ignored. -/
def rowSkip (concept : String) : Bool :=
  ["EDO RES", "EDO RESUL"].any (fun e => strContains concept e)

/-- The ordered, first-match concept classification chain (rows 1051-1066). -/
def classifyConcept (c : String) (v : ℚ) (s : StoreInfo) : StoreInfo :=
  if c == "INGRESOS" || c == "VENTAS" || strContains c "VENTA NETA" then
    { s with total_sales := v }
  else if c == "COSTO DE VENTA" || c == "COSTO DE VENTAS" then
    { s with cost_of_sales := v }
  else if c == "TOTAL EGRESOS" || c == "EGRESOS TOTALES" then
    { s with operating_expenses := v }
  else if strContains c "NOMINA" || strContains c "SALARIO" || strContains c "SUELDO" then
    { s with labor_cost := s.labor_cost + v }
  else if strContains c "RENTA" && strContains c "LOCAL" then
    { s with rent := v }
  else if c == "RENTA" then
    { s with rent := v }
  else if ["CFE", "LUZ", "ELECTRICIDAD", "AGUA", "GAS"].any (fun x => strContains c x) then
    { s with utilities := s.utilities + v }
  else if strContains c "UTILIDAD NETA" || c == "UTILIDAD" then
    { s with net_profit := v }
  else s

/-- One concept row applied to every store accumulator: the store's own column
is read from the row and, when numeric, classified into the accumulator. -/
def processConceptRow (c : String) (row : RawRow) (stores : List (String × StoreInfo)) :
    List (String × StoreInfo) :=
  stores.map (fun kv =>
    match (rawRowGet row kv.2.col_key).bind CellValue.asNum with
    | some v => (kv.1, classifyConcept c v kv.2)
    | none => kv)

/-- The whole extractor loop: seed accumulators from the header row, then fold
the concept rows (skipping rows without a concept and sheet-marker rows). -/
def extractStores (data : List RawRow) : List (String × StoreInfo) :=
  match data with
  | [] => []
  | header :: rest =>
    rest.foldl (fun stores row =>
      match conceptOf row with
      | none => stores
      | some c => if rowSkip c then stores else processConceptRow c row stores)
      (initStoresData (store_columns header))

/-! ## Monthly summaries and the reconciler -/

/-- One `monthly_summaries` row. -/
structure SRow where
  store_id : String
  store_name : String
  period : String
  total_sales : ℚ
  cost_of_sales : ℚ
  gross_profit : ℚ
  gross_margin : ℚ
  operating_expenses : ℚ
  labor_cost : ℚ
  rent : ℚ
  utilities : ℚ
  net_profit : ℚ
  net_margin : ℚ
  document_id : ℕ
deriving DecidableEq, Repr

/-- The row the reconciler writes for one store (rows 1079-1115): margins are
computed from the accumulator, with a zero fallback when sales are not positive. -/
def mkSummaryRow (info : StoreInfo) (period : String) (doc_id : ℕ) : SRow :=
  let gross_profit := info.total_sales - info.cost_of_sales
  let gross_margin := if 0 < info.total_sales then gross_profit / info.total_sales * 100 else 0
  let net_margin := if 0 < info.total_sales then info.net_profit / info.total_sales * 100 else 0
  { store_id := info.store_id, store_name := info.store_name, period := period
    total_sales := info.total_sales, cost_of_sales := info.cost_of_sales
    gross_profit := gross_profit, gross_margin := gross_margin
    operating_expenses := info.operating_expenses, labor_cost := info.labor_cost
    rent := info.rent, utilities := info.utilities, net_profit := info.net_profit
    net_margin := net_margin, document_id := doc_id }

/-- The key test of the existing-row query: same `store_id` and same `period`. -/
def sameKey (s r : SRow) : Bool := s.store_id == r.store_id && s.period == r.period

/-- The update branch (rows 1086-1096): all numeric fields and the document id
are overwritten in place; `store_name` (and the key fields) are left as stored. -/
def writePayload (r s : SRow) : SRow :=
  { s with
    total_sales := r.total_sales, cost_of_sales := r.cost_of_sales,
    gross_profit := r.gross_profit, gross_margin := r.gross_margin,
    operating_expenses := r.operating_expenses, labor_cost := r.labor_cost,
    rent := r.rent, utilities := r.utilities, net_profit := r.net_profit,
    net_margin := r.net_margin, document_id := r.document_id }

/-- Overwrite the first row matching the key of `r`, as `.first()` plus field
assignment does. -/
def updateFirst (r : SRow) : List SRow → List SRow
  | [] => []
  | s :: t => if sameKey s r then writePayload r s :: t else s :: updateFirst r t

/-- One store's reconciliation step under `autoflush=False`: the existence
query (rows 1074-1077) sees only `db0`, the table as it stood when the call
began — never inserts pending from earlier loop iterations.  When a `db0` row
matches, the update rewrites the first matching row of the evolving table `d`
(its position and key agree with the first match in `db0`, since updates never
touch key columns and pending inserts sit after the stored rows); otherwise a
new row is appended, even if an earlier iteration already appended one with
the same key. -/
def reconcileStep (db0 : List SRow) (d : List SRow) (r : SRow) : List SRow :=
  if db0.any (fun s => sameKey s r) then updateFirst r d else d ++ [r]

/-- The reconciliation loop over every extracted store: all existence checks
run against the table as of call start. -/
def applySummaryBatch (rs : List SRow) (db : List SRow) : List SRow :=
  rs.foldl (reconcileStep db) db

/-! ## Documents, raw data, and the persisted state -/

/-- One `documents` row (the fields the pipeline reads or the claims mention). -/
structure Document where
  id : ℕ
  filename : String
  status : String
  period : String
deriving DecidableEq, Repr

/-- One `raw_document_data` row; `data` is the `"data"` list of `raw_json`,
`none` when `raw_json` is absent or null. -/
structure RawDocumentData where
  document_id : ℕ
  data : Option (List RawRow)
deriving DecidableEq

/-- The persisted state the pipeline touches. -/
structure DBState where
  documents : List Document
  rawData : List RawDocumentData
  summaries : List SRow
deriving DecidableEq

/-- The period regex of the reconciler (row 986): the digits after the first
literal `P` of the raw filename, case-sensitively; `none` when no `P` is
followed by a digit. -/
def findPnum : List Char → Option (List Char)
  | [] => none
  | c :: t =>
    if c == 'P' then
      let ds := t.takeWhile Char.isDigit
      if ds.isEmpty then findPnum t else some ds
    else findPnum t

/-- The period number string of the reconciler, with its `"00"` fallback. -/
def summaryPeriodNum (filename : String) : String :=
  match findPnum filename.toList with
  | some ds => String.mk ds
  | none => "00"

/-- The period label the reconciler stamps on every summary row (row 988). -/
def summaryPeriodLabel (filename : String) : String :=
  "2025-P" ++ summaryPeriodNum filename

/-- The outcome value of `extract_financial_data_to_summaries`. -/
inductive ExtractResult where
  | err (msg : String)
  | ok (period : String) (stores_processed records_created records_updated : ℕ)
deriving DecidableEq, Repr

/-- The summary batch a document produces: one `mkSummaryRow` per extracted
store, stamped with the document's period label and id. -/
def summaryBatch (filename : String) (data : List RawRow) (doc_id : ℕ) : List SRow :=
  (extractStores data).map (fun kv => mkSummaryRow kv.2 (summaryPeriodLabel filename) doc_id)

/-- One step of the save loop (rows 1072-1117), also counting creates and
updates; the existence check reads `db0`, the table as of call start. -/
def saveStep (db0 : List SRow) (acc : List SRow × ℕ × ℕ) (r : SRow) :
    List SRow × ℕ × ℕ :=
  if db0.any (fun s => sameKey s r) then (updateFirst r acc.1, acc.2.1, acc.2.2 + 1)
  else (acc.1 ++ [r], acc.2.1 + 1, acc.2.2)

/-- The reconciler `extract_financial_data_to_summaries(doc_id, db)`: look up the document and
its raw data, fail early (without touching the state) when either is missing or
the data list is empty, otherwise extract the store accumulators and upsert one
summary row per store. -/
def extract_financial_data_to_summaries (doc_id : ℕ) (st : DBState) :
    ExtractResult × DBState :=
  match st.documents.find? (fun d => d.id == doc_id) with
  | none => (.err "Documento no encontrado", st)
  | some doc =>
    match st.rawData.find? (fun r => r.document_id == doc_id) with
    | none => (.err "Sin datos raw", st)
    | some raw =>
      match raw.data with
      | none => (.err "Sin datos raw", st)
      | some data =>
        if data.isEmpty then (.err "Datos vacíos", st)
        else
          let batch := summaryBatch doc.filename data doc_id
          let fin := batch.foldl (saveStep st.summaries) (st.summaries, 0, 0)
          (.ok (summaryPeriodLabel doc.filename) (extractStores data).length fin.2.1 fin.2.2,
            { st with summaries := fin.1 })

/-- The summary batch one call of the extractor computes for a document
(empty when the call fails early): the rows the save loop will write. -/
def extractedBatch (doc_id : ℕ) (st : DBState) : List SRow :=
  match st.documents.find? (fun d => d.id == doc_id) with
  | none => []
  | some doc =>
    match st.rawData.find? (fun r => r.document_id == doc_id) with
    | none => []
    | some raw =>
      match raw.data with
      | none => []
      | some data =>
        if data.isEmpty then [] else summaryBatch doc.filename data doc_id

/-- The SQL `ilike "%ESTADO DE RESULTADOS%"` filter: case-insensitive substring. -/
def isStatementFilename (filename : String) : Bool :=
  strContains (pyUpper filename) "ESTADO DE RESULTADOS"

/-- The rebuild endpoint `sync_financial_summaries(clean, db)`: with `clean` set, delete every
summary row first; then run the extractor over every confirmed document whose
filename matches the statement heuristic, in stored order. -/
def sync_financial_summaries (clean : Bool) (st : DBState) : DBState :=
  let st1 := if clean then { st with summaries := [] } else st
  let docs := st1.documents.filter
    (fun d => d.status == "confirmed" && isStatementFilename d.filename)
  docs.foldl (fun s d => (extract_financial_data_to_summaries d.id s).2) st1

/-! ## Filename period detection (`detect_period_from_filename`, rows 759-796) -/

/-- The `period_months` table of the source. -/
def period_months : List (String × String) :=
  [("P1", "Enero"), ("P2", "Febrero"), ("P3", "Marzo"), ("P4", "Abril"),
   ("P5", "Mayo"), ("P6", "Junio"), ("P7", "Julio"), ("P8", "Agosto"),
   ("P9", "Septiembre"), ("P10", "Octubre"), ("P11", "Noviembre"), ("P12", "Diciembre")]

/-- The leftmost match of `P(\d{1,2})` over a character list: the first `P`
followed by at least one digit captures greedily up to two digits. -/
def findPnum2 : List Char → Option (List Char)
  | [] => none
  | c :: t =>
    if c == 'P' then
      let ds := (t.takeWhile Char.isDigit).take 2
      if ds.isEmpty then findPnum2 t else some ds
    else findPnum2 t

/-- An anchored match of `S(\d+)\s*A\s*S(\d+)` at the head of the list. -/
def weeksHere : List Char → Option (List Char × List Char)
  | [] => none
  | c :: t =>
    if c == 'S' then
      let d1 := t.takeWhile Char.isDigit
      if d1.isEmpty then none
      else
        match (t.drop d1.length).dropWhile isWS with
        | 'A' :: r3 =>
          match r3.dropWhile isWS with
          | 'S' :: r5 =>
            let d2 := r5.takeWhile Char.isDigit
            if d2.isEmpty then none else some (d1, d2)
          | _ => none
        | _ => none
    else none

/-- The leftmost match of the weeks pattern `S(\d+)\s*A\s*S(\d+)`. -/
def findWeeks : List Char → Option (List Char × List Char)
  | [] => none
  | c :: t =>
    match weeksHere (c :: t) with
    | some r => some r
    | none => findWeeks t

/-- The leftmost match of the year pattern `20\d{2}`. -/
def findYear : List Char → Option (List Char)
  | '2' :: '0' :: a :: b :: t =>
    if a.isDigit && b.isDigit then some ['2', '0', a, b]
    else findYear ('0' :: a :: b :: t)
  | _ :: t => findYear t
  | [] => none

/-- The `months_es` list of the source. -/
def months_es : List String :=
  ["enero", "febrero", "marzo", "abril", "mayo", "junio",
   "julio", "agosto", "septiembre", "octubre", "noviembre", "diciembre"]

/-- Python `month.capitalize()` for the lowercase month names. -/
def capFirst (s : String) : String :=
  match s.toList with
  | [] => s
  | c :: t => String.mk (charUp c :: t.map charLow)

/-- The detector `detect_period_from_filename(filename)`: a `P<n>` code maps through
`period_months` (with a week-range suffix when `S<a> A S<b>` also appears),
else the first Spanish month name found as a substring, else the first year
`20XX`, else the label of the current date; `nowLabel` stands for
`datetime.now().strftime('%B %Y').capitalize()`. -/
def detect_period_from_filename (filename : String) (nowLabel : String) : String :=
  let up := pyUpper filename
  match findPnum2 up.toList with
  | some ds =>
    let period_num := "P" ++ String.mk ds
    let month :=
      match period_months.find? (fun kv => kv.1 == period_num) with
      | some kv => kv.2
      | none => "Periodo " ++ String.mk ds
    match findWeeks up.toList with
    | some (w1, w2) => month ++ " (S" ++ String.mk w1 ++ "-S" ++ String.mk w2 ++ ")"
    | none => month
  | none =>
    let low := pyLower filename
    match months_es.find? (fun m => strContains low m) with
    | some m => capFirst m
    | none =>
      match findYear filename.toList with
      | some y => String.mk y
      | none => nowLabel

/-! ## Dashboard correlation (`get_dashboard_charts_data`, rows 1995-2014) -/

/-- Arithmetic mean of a list of rationals. -/
def meanQ (l : List ℚ) : ℚ := l.sum / l.length

/-- Deviations from the mean. -/
def devsQ (l : List ℚ) : List ℚ := l.map (fun x => x - meanQ l)

/-- The centered cross sum of the Pearson numerator. -/
def covSum (xs ys : List ℚ) : ℚ := (((devsQ xs).zip (devsQ ys)).map (fun p => p.1 * p.2)).sum

/-- The centered square sum of one list. -/
def varSum (xs : List ℚ) : ℚ := ((devsQ xs).map (fun d => d * d)).sum

/-- The chart's correlation coefficient: Pearson over the per-store sales and
operating-expense pairs of the period, forced to `0` when fewer than two stores
are present or when the computation is degenerate (`np.corrcoef` yields NaN
exactly when a centered square sum vanishes, making the quotient `0/0`). -/
noncomputable def correlation_coefficient (pts : List (ℚ × ℚ)) : ℝ :=
  let xs := pts.map Prod.fst
  let ys := pts.map Prod.snd
  if 2 ≤ xs.length ∧ 2 ≤ ys.length ∧ varSum xs * varSum ys ≠ 0 then
    (covSum xs ys : ℝ) / Real.sqrt ((varSum xs * varSum ys : ℚ) : ℝ)
  else 0

/-- The margin invariant of one summary row, as the reconciler computes it. -/
def marginsOk (s : SRow) : Prop :=
  s.gross_profit = s.total_sales - s.cost_of_sales ∧
  s.gross_margin = (if 0 < s.total_sales then s.gross_profit / s.total_sales * 100 else 0) ∧
  s.net_margin = (if 0 < s.total_sales then s.net_profit / s.total_sales * 100 else 0)

/-! Witness data for the margin invariant: one store column, one net-profit
concept row (sales stay 0, exercising the zero-sales margin fallback). -/

def c1Data : List RawRow :=
  [[("P1", .vnull), ("COL", .vstr "MX")], [("P1", .vstr "UTILIDAD"), ("COL", .vnum 5)]]

def c1Doc : Document :=
  { id := 1, filename := "P1.xlsx", status := "confirmed", period := "Enero" }

def c1Raw : RawDocumentData := { document_id := 1, data := some c1Data }

def c1St : DBState := { documents := [c1Doc], rawData := [c1Raw], summaries := [] }

def c1Info : StoreInfo :=
  { store_id := "mx", store_name := "MX",
    total_sales := 0, cost_of_sales := 0, operating_expenses := 0, labor_cost := 0,
    rent := 0, utilities := 0, net_profit := 5, col_key := "COL" }

def c1Row : SRow :=
  { store_id := "mx", store_name := "MX", period := "2025-P1",
    total_sales := 0, cost_of_sales := 0, gross_profit := 0, gross_margin := 0,
    operating_expenses := 0, labor_cost := 0, rent := 0, utilities := 0,
    net_profit := 5, net_margin := 0, document_id := 1 }

/-! ## Concept-column selection (C4) -/

/-- The claimed selection test for the concept cell: a non-empty string value in
a column that is not a bookkeeping column (`Unnamed` placeholder or sheet tag);
no condition on the column name beyond that. -/
def conceptCellOkClaim (key : String) (v : CellValue) : Bool :=
  match v with
  | .vstr s => !s.isEmpty && !(strContains key "Unnamed") && !(strContains key "_hoja")
  | _ => false

/-- The concept the claim describes: the first cell passing `conceptCellOkClaim`,
uppercased and trimmed. -/
def conceptOfClaim (row : RawRow) : Option String :=
  (row.find? (fun kv => conceptCellOkClaim kv.1 kv.2)).map
    (fun kv =>
      match kv.2 with
      | .vstr s => pyStrip (pyUpper s)
      | _ => "")

/-- The selection test the code actually applies: the claimed test plus the
requirement that the column name contain the letter `P`. -/
def conceptCellOkP (key : String) (v : CellValue) : Bool :=
  conceptCellOkClaim key v && strContains key "P"

/-- The amended selection, phrased as a first-match search with the `P`
requirement added. -/
def conceptOfSpecP (row : RawRow) : Option String :=
  (row.find? (fun kv => conceptCellOkP kv.1 kv.2)).map
    (fun kv =>
      match kv.2 with
      | .vstr s => pyStrip (pyUpper s)
      | _ => "")

/-! ## Period labels (C8) -/

/-- A `P`-followed-by-digit occurrence at index `i` of the character list: the
index-level reading of the regex `P(\d+)` having a match there. -/
def pRunAt (cs : List Char) (i : ℕ) : Prop :=
  cs[i]? = some 'P' ∧ ((cs[i + 1]?).map Char.isDigit).getD false = true

instance (cs : List Char) (i : ℕ) : Decidable (pRunAt cs i) := by
  unfold pRunAt
  infer_instance

/-! ## End-to-end scenario (C3) -/

/-- The literal sheet of the spec scenario: store names in the header under
`colA`/`colB`, concepts in `colA`, numeric values in `value_colA`/`value_colB`. -/
def c3LitData : List RawRow :=
  [[("colA", .vstr "Tienda Centro"), ("colB", .vstr "Tienda Norte")],
   [("colA", .vstr "INGRESOS"), ("value_colA", .vnum 10000), ("value_colB", .vnum 8000)],
   [("colA", .vstr "COSTO DE VENTA"), ("value_colA", .vnum 3000), ("value_colB", .vnum 2000)]]

def c3Doc : Document :=
  { id := 1, filename := "ESTADO DE RESULTADOS P11.xlsx", status := "confirmed",
    period := "Noviembre" }

def c3LitRaw : RawDocumentData := { document_id := 1, data := some c3LitData }

def c3LitSt : DBState := { documents := [c3Doc], rawData := [c3LitRaw], summaries := [] }

/-- The all-zero accumulators the literal layout produces: no concept is ever
found (no column name contains `P`), and the store columns `colA`/`colB` hold
no numeric values. -/
def c3InfoC0 : StoreInfo :=
  { store_id := "tienda_centro", store_name := "TIENDA CENTRO",
    total_sales := 0, cost_of_sales := 0, operating_expenses := 0, labor_cost := 0,
    rent := 0, utilities := 0, net_profit := 0, col_key := "colA" }

def c3InfoN0 : StoreInfo :=
  { store_id := "tienda_norte", store_name := "TIENDA NORTE",
    total_sales := 0, cost_of_sales := 0, operating_expenses := 0, labor_cost := 0,
    rent := 0, utilities := 0, net_profit := 0, col_key := "colB" }

def c3ZeroC : SRow :=
  { store_id := "tienda_centro", store_name := "TIENDA CENTRO", period := "2025-P11",
    total_sales := 0, cost_of_sales := 0, gross_profit := 0, gross_margin := 0,
    operating_expenses := 0, labor_cost := 0, rent := 0, utilities := 0,
    net_profit := 0, net_margin := 0, document_id := 1 }

def c3ZeroN : SRow :=
  { store_id := "tienda_norte", store_name := "TIENDA NORTE", period := "2025-P11",
    total_sales := 0, cost_of_sales := 0, gross_profit := 0, gross_margin := 0,
    operating_expenses := 0, labor_cost := 0, rent := 0, utilities := 0,
    net_profit := 0, net_margin := 0, document_id := 1 }

/-- The fixed layout the code actually handles: the concept column is named
`P11` (null in the header), store values sit under the stores' own columns. -/
def c3FixData : List RawRow :=
  [[("P11", .vnull), ("colA", .vstr "Tienda Centro"), ("colB", .vstr "Tienda Norte")],
   [("P11", .vstr "INGRESOS"), ("colA", .vnum 10000), ("colB", .vnum 8000)],
   [("P11", .vstr "COSTO DE VENTA"), ("colA", .vnum 3000), ("colB", .vnum 2000)]]

def c3FixRaw : RawDocumentData := { document_id := 1, data := some c3FixData }

def c3FixSt : DBState := { documents := [c3Doc], rawData := [c3FixRaw], summaries := [] }

def c3InfoC : StoreInfo :=
  { store_id := "tienda_centro", store_name := "TIENDA CENTRO",
    total_sales := 10000, cost_of_sales := 3000, operating_expenses := 0, labor_cost := 0,
    rent := 0, utilities := 0, net_profit := 0, col_key := "colA" }

def c3InfoN : StoreInfo :=
  { store_id := "tienda_norte", store_name := "TIENDA NORTE",
    total_sales := 8000, cost_of_sales := 2000, operating_expenses := 0, labor_cost := 0,
    rent := 0, utilities := 0, net_profit := 0, col_key := "colB" }

/-- Tienda Centro: sales 10000, cost 3000, gross profit 7000, gross margin 70. -/
def c3RowC : SRow :=
  { store_id := "tienda_centro", store_name := "TIENDA CENTRO", period := "2025-P11",
    total_sales := 10000, cost_of_sales := 3000, gross_profit := 7000, gross_margin := 70,
    operating_expenses := 0, labor_cost := 0, rent := 0, utilities := 0,
    net_profit := 0, net_margin := 0, document_id := 1 }

/-- Tienda Norte: sales 8000, cost 2000, gross profit 6000, gross margin 75. -/
def c3RowN : SRow :=
  { store_id := "tienda_norte", store_name := "TIENDA NORTE", period := "2025-P11",
    total_sales := 8000, cost_of_sales := 2000, gross_profit := 6000, gross_margin := 75,
    operating_expenses := 0, labor_cost := 0, rent := 0, utilities := 0,
    net_profit := 0, net_margin := 0, document_id := 1 }

/-! Scenario data for re-extraction (C2): a document whose two header names
`"TIENDA A"` and `"TIENDA_A"` normalize to the same `store_id` `"tienda_a"`
(space to underscore, lowercased), so one batch carries two rows with the same
`(store_id, period)` key; and a single-store document whose keys are trivially
distinct. -/

def c2Data : List RawRow :=
  [[("P1", .vnull), ("colA", .vstr "TIENDA A"), ("colB", .vstr "TIENDA_A")],
   [("P1", .vstr "UTILIDAD"), ("colA", .vnum 100), ("colB", .vnum 200)]]

def c2Doc : Document :=
  { id := 1, filename := "P1.xlsx", status := "confirmed", period := "Enero" }

def c2Raw : RawDocumentData := { document_id := 1, data := some c2Data }

def c2St : DBState := { documents := [c2Doc], rawData := [c2Raw], summaries := [] }

def c2InfoA : StoreInfo :=
  { store_id := "tienda_a", store_name := "TIENDA A",
    total_sales := 0, cost_of_sales := 0, operating_expenses := 0, labor_cost := 0,
    rent := 0, utilities := 0, net_profit := 100, col_key := "colA" }

def c2InfoB : StoreInfo :=
  { store_id := "tienda_a", store_name := "TIENDA_A",
    total_sales := 0, cost_of_sales := 0, operating_expenses := 0, labor_cost := 0,
    rent := 0, utilities := 0, net_profit := 200, col_key := "colB" }

def c2RowA : SRow :=
  { store_id := "tienda_a", store_name := "TIENDA A", period := "2025-P1",
    total_sales := 0, cost_of_sales := 0, gross_profit := 0, gross_margin := 0,
    operating_expenses := 0, labor_cost := 0, rent := 0, utilities := 0,
    net_profit := 100, net_margin := 0, document_id := 1 }

def c2RowB : SRow :=
  { store_id := "tienda_a", store_name := "TIENDA_A", period := "2025-P1",
    total_sales := 0, cost_of_sales := 0, gross_profit := 0, gross_margin := 0,
    operating_expenses := 0, labor_cost := 0, rent := 0, utilities := 0,
    net_profit := 200, net_margin := 0, document_id := 1 }

/-- The state after the first run on the collision document: two stored rows
with the same `(store_id, period)` key. -/
def c2St2 : DBState :=
  { documents := [c2Doc], rawData := [c2Raw], summaries := [c2RowA, c2RowB] }

def c2OkData : List RawRow :=
  [[("P1", .vnull), ("COL", .vstr "MX")], [("P1", .vstr "UTILIDAD"), ("COL", .vnum 7)]]

def c2OkRaw : RawDocumentData := { document_id := 1, data := some c2OkData }

def c2OkSt : DBState := { documents := [c2Doc], rawData := [c2OkRaw], summaries := [] }

/-! ## Reconciler lemmas -/

/-- The composite key of a summary row. -/
def keyPair (s : SRow) : String × String := (s.store_id, s.period)

/-- Whether a row with the key of `r` is already stored. -/
def hasKeyOf (r : SRow) (db : List SRow) : Bool := db.any (fun s => sameKey s r)

theorem sameKey_iff_keyPair {s r : SRow} : sameKey s r = true ↔ keyPair s = keyPair r := by
  simp [sameKey, keyPair, Prod.ext_iff]

@[simp] theorem writePayload_store_id (r s : SRow) :
    (writePayload r s).store_id = s.store_id := rfl

@[simp] theorem writePayload_period (r s : SRow) :
    (writePayload r s).period = s.period := rfl

@[simp] theorem writePayload_store_name (r s : SRow) :
    (writePayload r s).store_name = s.store_name := rfl

@[simp] theorem sameKey_writePayload (r s r' : SRow) :
    sameKey (writePayload r s) r' = sameKey s r' := rfl

theorem writePayload_writePayload (r r' s : SRow) :
    writePayload r (writePayload r' s) = writePayload r s := rfl

theorem writePayload_self (r : SRow) : writePayload r r = r := rfl

theorem sameKey_congr {r₀ r : SRow} (h : keyPair r₀ = keyPair r) (s : SRow) :
    sameKey s r₀ = sameKey s r := by
  simp only [keyPair, Prod.mk.injEq] at h
  simp only [sameKey, h.1, h.2]

@[simp] theorem updateFirst_nil (r : SRow) : updateFirst r [] = [] := rfl

theorem updateFirst_cons (r s : SRow) (t : List SRow) :
    updateFirst r (s :: t) =
      if sameKey s r then writePayload r s :: t else s :: updateFirst r t := rfl

@[simp] theorem hasKeyOf_updateFirst (r r' : SRow) (db : List SRow) :
    hasKeyOf r' (updateFirst r db) = hasKeyOf r' db := by
  induction db with
  | nil => rfl
  | cons s t ih =>
    by_cases h : sameKey s r
    · simp [updateFirst_cons, h, hasKeyOf, List.any_cons]
    · simp only [updateFirst_cons, if_neg h]
      simp [hasKeyOf, List.any_cons] at ih ⊢
      rw [ih]

theorem updateFirst_same_key {r₀ r : SRow} (h : keyPair r₀ = keyPair r) (db : List SRow) :
    updateFirst r₀ (updateFirst r db) = updateFirst r₀ db := by
  induction db with
  | nil => rfl
  | cons s t ih =>
    by_cases hs : sameKey s r
    · have hs₀ : sameKey s r₀ = true := by rw [sameKey_congr h, hs]
      simp [updateFirst_cons, hs, hs₀, writePayload_writePayload]
    · have hs₀ : sameKey s r₀ = false := by rw [sameKey_congr h]; simp [hs]
      simp [updateFirst_cons, hs, hs₀, ih]

theorem updateFirst_comm {r₀ r : SRow} (h : keyPair r₀ ≠ keyPair r) (db : List SRow) :
    updateFirst r₀ (updateFirst r db) = updateFirst r (updateFirst r₀ db) := by
  induction db with
  | nil => rfl
  | cons s t ih =>
    by_cases hs : sameKey s r
    · have hs₀ : sameKey s r₀ = false := by
        cases hb : sameKey s r₀
        · rfl
        · exact absurd ((sameKey_iff_keyPair.mp hb).symm.trans (sameKey_iff_keyPair.mp hs)) h
      simp [updateFirst_cons, hs, hs₀]
    · by_cases hs₀ : sameKey s r₀
      · simp [updateFirst_cons, hs, hs₀]
      · simp [updateFirst_cons, hs, hs₀, ih]

theorem updateFirst_append_left {r : SRow} {db : List SRow} (h : hasKeyOf r db = true)
    (l : List SRow) : updateFirst r (db ++ l) = updateFirst r db ++ l := by
  induction db with
  | nil => simp [hasKeyOf] at h
  | cons s t ih =>
    by_cases hs : sameKey s r
    · simp [updateFirst_cons, hs]
    · have ht : hasKeyOf r t = true := by
        simpa [hasKeyOf, List.any_cons, hs] using h
      simp [updateFirst_cons, hs, ih ht]

theorem updateFirst_append_right {r : SRow} {db : List SRow} (h : hasKeyOf r db = false)
    (l : List SRow) : updateFirst r (db ++ l) = db ++ updateFirst r l := by
  induction db with
  | nil => simp
  | cons s t ih =>
    simp only [hasKeyOf, List.any_cons, Bool.or_eq_false_iff] at h
    have ht : hasKeyOf r t = false := h.2
    simp [updateFirst_cons, h.1, ih ht]

theorem reconcileStep_pos {r : SRow} {db0 : List SRow} (h : hasKeyOf r db0 = true)
    (d : List SRow) : reconcileStep db0 d r = updateFirst r d := by
  simp only [hasKeyOf] at h
  simp [reconcileStep, h]

theorem reconcileStep_neg {r : SRow} {db0 : List SRow} (h : hasKeyOf r db0 = false)
    (d : List SRow) : reconcileStep db0 d r = d ++ [r] := by
  simp only [hasKeyOf] at h
  simp [reconcileStep, h]

theorem hasKeyOf_reconcileStep_mono {x : SRow} {d : List SRow}
    (h : hasKeyOf x d = true) (db0 : List SRow) (r : SRow) :
    hasKeyOf x (reconcileStep db0 d r) = true := by
  cases hg : hasKeyOf r db0
  · rw [reconcileStep_neg hg]
    simp only [hasKeyOf, List.any_append] at h ⊢
    simp [h]
  · rw [reconcileStep_pos hg, hasKeyOf_updateFirst]
    exact h

theorem hasKeyOf_fold_mono {x : SRow} (db0 : List SRow) :
    ∀ (l : List SRow) {d : List SRow}, hasKeyOf x d = true →
      hasKeyOf x (l.foldl (reconcileStep db0) d) = true := by
  intro l
  induction l with
  | nil => intro d h; exact h
  | cons r l' ih =>
    intro d h
    rw [List.foldl_cons]
    exact ih (hasKeyOf_reconcileStep_mono h db0 r)

theorem hasKeyOf_fold_self (db0 : List SRow) :
    ∀ (l : List SRow) (d : List SRow) (r : SRow), r ∈ l →
      (∀ x : SRow, hasKeyOf x db0 = true → hasKeyOf x d = true) →
      hasKeyOf r (l.foldl (reconcileStep db0) d) = true := by
  intro l
  induction l with
  | nil => intro d r hr _; exact absurd hr (List.not_mem_nil r)
  | cons r0 l' ih =>
    intro d r hr hsub
    rw [List.foldl_cons]
    rcases List.mem_cons.mp hr with h0 | hr'
    · rw [h0]
      apply hasKeyOf_fold_mono
      cases hg : hasKeyOf r0 db0
      · rw [reconcileStep_neg hg]
        simp [hasKeyOf, List.any_append, sameKey]
      · rw [reconcileStep_pos hg, hasKeyOf_updateFirst]
        exact hsub r0 hg
    · exact ih _ r hr' (fun x hx => hasKeyOf_reconcileStep_mono (hsub x hx) db0 r0)

theorem updateFirst_fixed_reconcileStep {r r' : SRow} (h : keyPair r' ≠ keyPair r)
    (db0 : List SRow) {d : List SRow} (hf : updateFirst r d = d) :
    updateFirst r (reconcileStep db0 d r') = reconcileStep db0 d r' := by
  cases hg : hasKeyOf r' db0
  · rw [reconcileStep_neg hg]
    cases hk : hasKeyOf r d
    · rw [updateFirst_append_right hk]
      have hs : sameKey r' r = false := by
        cases hb : sameKey r' r
        · rfl
        · exact absurd (sameKey_iff_keyPair.mp hb) h
      simp [updateFirst_cons, hs]
    · rw [updateFirst_append_left hk, hf]
  · rw [reconcileStep_pos hg, updateFirst_comm (Ne.symm h), hf]

theorem updateFirst_fixed_fold (db0 : List SRow) :
    ∀ (l : List SRow) {d : List SRow} {r : SRow},
      (∀ r' ∈ l, keyPair r' ≠ keyPair r) → updateFirst r d = d →
      updateFirst r (l.foldl (reconcileStep db0) d) = l.foldl (reconcileStep db0) d := by
  intro l
  induction l with
  | nil => intro d r _ hf; exact hf
  | cons r' l' ih =>
    intro d r hall hf
    rw [List.foldl_cons]
    exact ih (fun x hx => hall x (List.mem_cons_of_mem r' hx))
      (updateFirst_fixed_reconcileStep (hall r' (List.mem_cons_self r' l')) db0 hf)

theorem fold_each_fixed (db0 : List SRow) :
    ∀ (l : List SRow) (d : List SRow), (l.map keyPair).Nodup →
      (∀ x ∈ l, hasKeyOf x db0 = false → hasKeyOf x d = false) →
      ∀ r ∈ l, updateFirst r (l.foldl (reconcileStep db0) d)
        = l.foldl (reconcileStep db0) d := by
  intro l
  induction l with
  | nil => intro d _ _ r hr; exact absurd hr (List.not_mem_nil r)
  | cons r0 l' ih =>
    intro d hn hnew r hr
    rw [List.map_cons, List.nodup_cons] at hn
    obtain ⟨hnot, hntail⟩ := hn
    rw [List.foldl_cons]
    rcases List.mem_cons.mp hr with h0 | hr'
    · rw [h0]
      apply updateFirst_fixed_fold db0 l'
      · intro r' hr'' heq
        exact hnot (heq ▸ List.mem_map_of_mem keyPair hr'')
      · cases hg : hasKeyOf r0 db0
        · rw [reconcileStep_neg hg,
            updateFirst_append_right (hnew r0 (List.mem_cons_self r0 l') hg)]
          simp [updateFirst_cons, writePayload_self]
        · rw [reconcileStep_pos hg]
          exact updateFirst_same_key rfl d
    · refine ih _ hntail ?_ r hr'
      intro x hx hx0
      have hxd : hasKeyOf x d = false := hnew x (List.mem_cons_of_mem r0 hx) hx0
      cases hg : hasKeyOf r0 db0
      · rw [reconcileStep_neg hg]
        have hs : sameKey r0 x = false := by
          cases hb : sameKey r0 x
          · rfl
          · exact absurd (sameKey_iff_keyPair.mp hb)
              (fun heq => hnot (heq ▸ List.mem_map_of_mem keyPair hx))
        simp only [hasKeyOf, List.any_append, List.any_cons, List.any_nil] at hxd ⊢
        simp [hxd, hs]
      · rw [reconcileStep_pos hg, hasKeyOf_updateFirst]
        exact hxd

theorem fold_all_update (db0 : List SRow) :
    ∀ (l : List SRow) (d : List SRow), (∀ r ∈ l, hasKeyOf r db0 = true) →
      l.foldl (reconcileStep db0) d = l.foldl (fun x r => updateFirst r x) d := by
  intro l
  induction l with
  | nil => intro d _; rfl
  | cons r0 l' ih =>
    intro d hall
    rw [List.foldl_cons, List.foldl_cons,
      reconcileStep_pos (hall r0 (List.mem_cons_self r0 l'))]
    exact ih _ (fun r hr => hall r (List.mem_cons_of_mem r0 hr))

theorem foldl_update_noop : ∀ (l : List SRow) {d : List SRow},
    (∀ r ∈ l, updateFirst r d = d) → l.foldl (fun x r => updateFirst r x) d = d := by
  intro l
  induction l with
  | nil => intro d _; rfl
  | cons r0 l' ih =>
    intro d hall
    rw [List.foldl_cons, hall r0 (List.mem_cons_self r0 l')]
    exact ih (fun r hr => hall r (List.mem_cons_of_mem r0 hr))

/-- When the batch keys are pairwise distinct, applying the same reconciliation
batch a second time changes nothing: every batch key is stored after the first
pass, and each second-pass update rewrites the first matching row with the
values it already holds. -/
theorem applySummaryBatch_idem_of_nodup {rs db : List SRow}
    (hn : (rs.map keyPair).Nodup) :
    applySummaryBatch rs (applySummaryBatch rs db) = applySummaryBatch rs db := by
  have h1 : ∀ r ∈ rs, hasKeyOf r (applySummaryBatch rs db) = true :=
    fun r hr => hasKeyOf_fold_self db rs db r hr (fun x hx => hx)
  have h2 : ∀ r ∈ rs, updateFirst r (applySummaryBatch rs db) = applySummaryBatch rs db :=
    fun r hr => fold_each_fixed db rs db hn (fun x _ hx => hx) r hr
  have e1 : applySummaryBatch rs (applySummaryBatch rs db) =
      rs.foldl (fun x r => updateFirst r x) (applySummaryBatch rs db) :=
    fold_all_update (applySummaryBatch rs db) rs (applySummaryBatch rs db) h1
  rw [e1]
  exact foldl_update_noop rs h2

theorem foldl_saveStep_fst (db0 : List SRow) (rs db : List SRow) (cu : ℕ × ℕ) :
    (rs.foldl (saveStep db0) (db, cu)).1 = rs.foldl (reconcileStep db0) db := by
  induction rs generalizing db cu with
  | nil => rfl
  | cons r rs' ih =>
    rw [List.foldl_cons, List.foldl_cons]
    cases hc : hasKeyOf r db0
    · have hstep : saveStep db0 (db, cu) r = (db ++ [r], cu.1 + 1, cu.2) := by
        simp only [hasKeyOf] at hc
        simp [saveStep, hc]
      rw [hstep, ih, reconcileStep_neg hc]
    · have hstep : saveStep db0 (db, cu) r = (updateFirst r db, cu.1, cu.2 + 1) := by
        simp only [hasKeyOf] at hc
        simp [saveStep, hc]
      rw [hstep, ih, reconcileStep_pos hc]

theorem foldl_saveStep_fst_self (rs db : List SRow) (cu : ℕ × ℕ) :
    (rs.foldl (saveStep db) (db, cu)).1 = applySummaryBatch rs db :=
  foldl_saveStep_fst db rs db cu

theorem extract_none_doc {doc_id : ℕ} {st : DBState}
    (h : st.documents.find? (fun d => d.id == doc_id) = none) :
    extract_financial_data_to_summaries doc_id st = (.err "Documento no encontrado", st) := by
  unfold extract_financial_data_to_summaries
  simp [h]

theorem extract_none_raw {doc_id : ℕ} {st : DBState} {doc : Document}
    (h1 : st.documents.find? (fun d => d.id == doc_id) = some doc)
    (h2 : st.rawData.find? (fun r => r.document_id == doc_id) = none) :
    extract_financial_data_to_summaries doc_id st = (.err "Sin datos raw", st) := by
  unfold extract_financial_data_to_summaries
  simp [h1, h2]

theorem extract_none_data {doc_id : ℕ} {st : DBState} {doc : Document} {raw : RawDocumentData}
    (h1 : st.documents.find? (fun d => d.id == doc_id) = some doc)
    (h2 : st.rawData.find? (fun r => r.document_id == doc_id) = some raw)
    (h3 : raw.data = none) :
    extract_financial_data_to_summaries doc_id st = (.err "Sin datos raw", st) := by
  unfold extract_financial_data_to_summaries
  simp [h1, h2, h3]

theorem extract_empty_data {doc_id : ℕ} {st : DBState} {doc : Document}
    {raw : RawDocumentData} {data : List RawRow}
    (h1 : st.documents.find? (fun d => d.id == doc_id) = some doc)
    (h2 : st.rawData.find? (fun r => r.document_id == doc_id) = some raw)
    (h3 : raw.data = some data) (h4 : data.isEmpty = true) :
    extract_financial_data_to_summaries doc_id st = (.err "Datos vacíos", st) := by
  unfold extract_financial_data_to_summaries
  simp [h1, h2, h3, h4]

theorem extract_success_snd {doc_id : ℕ} {st : DBState} {doc : Document}
    {raw : RawDocumentData} {data : List RawRow}
    (h1 : st.documents.find? (fun d => d.id == doc_id) = some doc)
    (h2 : st.rawData.find? (fun r => r.document_id == doc_id) = some raw)
    (h3 : raw.data = some data) (h4 : data.isEmpty = false) :
    (extract_financial_data_to_summaries doc_id st).2 =
      { st with summaries :=
          applySummaryBatch (summaryBatch doc.filename data doc_id) st.summaries } := by
  unfold extract_financial_data_to_summaries
  simp [h1, h2, h3, h4, foldl_saveStep_fst_self]

/-- C2 counterexample: the two header names `"TIENDA A"` and `"TIENDA_A"` both
normalize to store id `"tienda_a"`, so one extraction batch carries two rows
with the same `(store_id, period)` key.  With `autoflush=False` the second
store's existence check cannot see the first store's pending insert: the first
run stores two rows with the same key (a duplicate), and the second run finds
the key present and updates the *first* duplicate twice, ending with its
payload overwritten by the second store's values — so running twice does not
equal running once. -/
theorem extract_twice_counterexample :
    ((extract_financial_data_to_summaries 1 c2St).2).summaries = [c2RowA, c2RowB] ∧
    keyPair c2RowA = keyPair c2RowB ∧
    ((extract_financial_data_to_summaries 1
        ((extract_financial_data_to_summaries 1 c2St).2)).2).summaries =
      [writePayload c2RowB c2RowA, c2RowB] ∧
    writePayload c2RowB c2RowA ≠ c2RowA := by
  have hstores : extractStores c2Data =
      [("TIENDA A", c2InfoA), ("TIENDA_A", c2InfoB)] := by decide
  have hper : summaryPeriodLabel "P1.xlsx" = "2025-P1" := by decide
  have hA : mkSummaryRow c2InfoA (summaryPeriodLabel "P1.xlsx") 1 = c2RowA := by
    rw [hper]
    norm_num [mkSummaryRow, c2InfoA, c2RowA]
  have hB : mkSummaryRow c2InfoB (summaryPeriodLabel "P1.xlsx") 1 = c2RowB := by
    rw [hper]
    norm_num [mkSummaryRow, c2InfoB, c2RowB]
  have hbatch : summaryBatch "P1.xlsx" c2Data 1 = [c2RowA, c2RowB] := by
    rw [summaryBatch, hstores]
    simp only [List.map_cons, List.map_nil, hA, hB]
  have e1 : (extract_financial_data_to_summaries 1 c2St).2 = c2St2 := by
    rw [@extract_success_snd 1 c2St c2Doc c2Raw c2Data (by rfl) (by rfl) (by rfl) (by rfl)]
    show ({ c2St with summaries :=
      applySummaryBatch (summaryBatch "P1.xlsx" c2Data 1) [] } : DBState) = c2St2
    rw [hbatch]
    decide
  have e2 : ((extract_financial_data_to_summaries 1 c2St2).2).summaries =
      [writePayload c2RowB c2RowA, c2RowB] := by
    rw [@extract_success_snd 1 c2St2 c2Doc c2Raw c2Data (by rfl) (by rfl) (by rfl) (by rfl)]
    show applySummaryBatch (summaryBatch "P1.xlsx" c2Data 1) [c2RowA, c2RowB] =
      [writePayload c2RowB c2RowA, c2RowB]
    rw [hbatch]
    decide
  exact ⟨by rw [e1]; rfl, by decide, by rw [e1]; exact e2, by decide⟩

/-- C2 (amended): re-running the extractor-plus-reconciler on the same
document reproduces the state exactly when the extracted batch has pairwise
distinct `(store_id, period)` keys: every second-run lookup then finds the row
the first run wrote and overwrites its numeric fields and document id in place
rather than inserting a duplicate, and `labor_cost`/`utilities` are not
double-accumulated (both are re-derived from the unchanged raw rows inside
each run).  When two header names normalize to the same store id, the first
run itself inserts duplicate rows, because the session's `autoflush=False`
hides pending inserts from the in-call existence check. -/
theorem extract_twice_eq_once (doc_id : ℕ) (st : DBState)
    (h : ((extractedBatch doc_id st).map keyPair).Nodup) :
    (extract_financial_data_to_summaries doc_id
        ((extract_financial_data_to_summaries doc_id st).2)).2 =
      (extract_financial_data_to_summaries doc_id st).2 := by
  rcases h1 : st.documents.find? (fun d => d.id == doc_id) with _ | doc
  · simp [extract_none_doc h1]
  · rcases h2 : st.rawData.find? (fun r => r.document_id == doc_id) with _ | raw
    · simp [extract_none_raw h1 h2]
    · rcases h3 : raw.data with _ | data
      · simp [extract_none_data h1 h2 h3]
      · cases h4 : data.isEmpty
        · have hb : extractedBatch doc_id st = summaryBatch doc.filename data doc_id := by
            unfold extractedBatch
            simp [h1, h2, h3, h4]
          rw [hb] at h
          have e1 := extract_success_snd h1 h2 h3 h4
          have h1' : ((extract_financial_data_to_summaries doc_id st).2).documents.find?
              (fun d => d.id == doc_id) = some doc := by rw [e1]; exact h1
          have h2' : ((extract_financial_data_to_summaries doc_id st).2).rawData.find?
              (fun r => r.document_id == doc_id) = some raw := by rw [e1]; exact h2
          have e2 := extract_success_snd h1' h2' h3 h4
          rw [e2, e1]
          simp [applySummaryBatch_idem_of_nodup h]
        · simp [extract_empty_data h1 h2 h3 h4]

/-- Closed instance of amended re-extraction idempotence, at a single-store
document whose batch keys are trivially distinct. -/
theorem extract_twice_eq_once_witness :
    (extract_financial_data_to_summaries 1
        ((extract_financial_data_to_summaries 1 c2OkSt).2)).2 =
      (extract_financial_data_to_summaries 1 c2OkSt).2 :=
  extract_twice_eq_once 1 c2OkSt (by decide)

theorem extract_state_frame (doc_id : ℕ) (st : DBState) :
    ((extract_financial_data_to_summaries doc_id st).2).documents = st.documents ∧
    ((extract_financial_data_to_summaries doc_id st).2).rawData = st.rawData ∧
    (∀ msg, (extract_financial_data_to_summaries doc_id st).1 = .err msg →
      (extract_financial_data_to_summaries doc_id st).2 = st) := by
  rcases h1 : st.documents.find? (fun d => d.id == doc_id) with _ | doc
  · simp [extract_none_doc h1]
  · rcases h2 : st.rawData.find? (fun r => r.document_id == doc_id) with _ | raw
    · simp [extract_none_raw h1 h2]
    · rcases h3 : raw.data with _ | data
      · simp [extract_none_data h1 h2 h3]
      · cases h4 : data.isEmpty
        · have e1 := extract_success_snd h1 h2 h3 h4
          refine ⟨by rw [e1], by rw [e1], ?_⟩
          intro msg hmsg
          have : (extract_financial_data_to_summaries doc_id st).1 =
              .ok (summaryPeriodLabel doc.filename) (extractStores data).length
                ((summaryBatch doc.filename data doc_id).foldl (saveStep st.summaries)
                  (st.summaries, 0, 0)).2.1
                ((summaryBatch doc.filename data doc_id).foldl (saveStep st.summaries)
                  (st.summaries, 0, 0)).2.2 := by
            unfold extract_financial_data_to_summaries
            simp [h1, h2, h3, h4]
          rw [this] at hmsg
          exact absurd hmsg (by simp)
        · simp [extract_empty_data h1 h2 h3 h4]

/-- C10: the extractor mutates only the summaries: documents and raw rows are
untouched by any call, and when the call fails early (missing document, missing
raw data, empty data) the whole state is returned unchanged. -/
theorem extract_frame (doc_id : ℕ) (st : DBState) :
    ((extract_financial_data_to_summaries doc_id st).2).documents = st.documents ∧
    ((extract_financial_data_to_summaries doc_id st).2).rawData = st.rawData ∧
    (∀ msg, (extract_financial_data_to_summaries doc_id st).1 = .err msg →
      (extract_financial_data_to_summaries doc_id st).2 = st) :=
  extract_state_frame doc_id st

/-- Closed instance of the frame theorem: on the empty state the extractor
reports the missing document and leaves the state untouched. -/
theorem extract_frame_witness :
    ((extract_financial_data_to_summaries 1
        { documents := [], rawData := [], summaries := [] }).2).documents = [] ∧
    (extract_financial_data_to_summaries 1
        { documents := [], rawData := [], summaries := [] }).2 =
      { documents := [], rawData := [], summaries := [] } :=
  ⟨(extract_frame 1 { documents := [], rawData := [], summaries := [] }).1,
    (extract_frame 1 { documents := [], rawData := [], summaries := [] }).2.2
      "Documento no encontrado" (by rw [extract_none_doc (by rfl)])⟩

theorem mem_updateFirst {s r : SRow} {db : List SRow} (h : s ∈ updateFirst r db) :
    s ∈ db ∨ ∃ s₀, s = writePayload r s₀ := by
  induction db with
  | nil => simp at h
  | cons s₁ t ih =>
    by_cases hk : sameKey s₁ r
    · rw [updateFirst_cons, if_pos hk] at h
      rcases List.mem_cons.mp h with h | h
      · exact Or.inr ⟨s₁, h⟩
      · exact Or.inl (List.mem_cons_of_mem s₁ h)
    · rw [updateFirst_cons, if_neg hk] at h
      rcases List.mem_cons.mp h with h | h
      · exact Or.inl (h ▸ List.mem_cons_self s₁ t)
      · rcases ih h with h | h
        · exact Or.inl (List.mem_cons_of_mem s₁ h)
        · exact Or.inr h

theorem mem_reconcileStep {s r : SRow} {db0 d : List SRow}
    (h : s ∈ reconcileStep db0 d r) :
    s ∈ d ∨ s = r ∨ ∃ s₀, s = writePayload r s₀ := by
  cases hg : hasKeyOf r db0
  · rw [reconcileStep_neg hg] at h
    rcases List.mem_append.mp h with h | h
    · exact Or.inl h
    · exact Or.inr (Or.inl (List.mem_singleton.mp h))
  · rw [reconcileStep_pos hg] at h
    rcases mem_updateFirst h with h | h
    · exact Or.inl h
    · exact Or.inr (Or.inr h)

theorem mem_fold_reconcile {s : SRow} (db0 : List SRow) :
    ∀ (l : List SRow) {d : List SRow}, s ∈ l.foldl (reconcileStep db0) d →
      s ∈ d ∨ ∃ r ∈ l, s = r ∨ ∃ s₀, s = writePayload r s₀ := by
  intro l
  induction l with
  | nil => intro d h; exact Or.inl h
  | cons r l' ih =>
    intro d h
    rw [List.foldl_cons] at h
    rcases ih h with h' | ⟨r', hr', h'⟩
    · rcases mem_reconcileStep h' with h'' | h''
      · exact Or.inl h''
      · exact Or.inr ⟨r, List.mem_cons_self r l', h''⟩
    · exact Or.inr ⟨r', List.mem_cons_of_mem r hr', h'⟩

theorem mem_applySummaryBatch {s : SRow} (rs : List SRow) {db : List SRow}
    (h : s ∈ applySummaryBatch rs db) :
    s ∈ db ∨ ∃ r ∈ rs, s = r ∨ ∃ s₀, s = writePayload r s₀ :=
  mem_fold_reconcile db rs h

theorem marginsOk_mkSummaryRow (info : StoreInfo) (period : String) (doc_id : ℕ) :
    marginsOk (mkSummaryRow info period doc_id) := ⟨rfl, rfl, rfl⟩

theorem marginsOk_writePayload (r s : SRow) (h : marginsOk r) :
    marginsOk (writePayload r s) := h

/-- C1: every summary row present after a reconciliation call either was
already stored before the call, or satisfies the margin invariant: gross profit
is sales minus cost of sales, and each margin is the corresponding profit over
sales times 100 when sales are positive and 0 otherwise.  Inserted and updated
rows alike receive the freshly computed values. -/
theorem summary_margin_invariant (doc_id : ℕ) (st : DBState) (s : SRow)
    (hs : s ∈ ((extract_financial_data_to_summaries doc_id st).2).summaries) :
    s ∈ st.summaries ∨
      (s.gross_profit = s.total_sales - s.cost_of_sales ∧
       s.gross_margin = (if 0 < s.total_sales then s.gross_profit / s.total_sales * 100 else 0) ∧
       s.net_margin = (if 0 < s.total_sales then s.net_profit / s.total_sales * 100 else 0)) := by
  rcases h1 : st.documents.find? (fun d => d.id == doc_id) with _ | doc
  · rw [extract_none_doc h1] at hs
    exact Or.inl hs
  · rcases h2 : st.rawData.find? (fun r => r.document_id == doc_id) with _ | raw
    · rw [extract_none_raw h1 h2] at hs
      exact Or.inl hs
    · rcases h3 : raw.data with _ | data
      · rw [extract_none_data h1 h2 h3] at hs
        exact Or.inl hs
      · cases h4 : data.isEmpty
        · rw [extract_success_snd h1 h2 h3 h4] at hs
          rcases mem_applySummaryBatch _ hs with h | ⟨r, hr, h⟩
          · exact Or.inl h
          · have hok : marginsOk r := by
              rcases List.mem_map.mp hr with ⟨kv, _, hkv⟩
              exact hkv ▸ marginsOk_mkSummaryRow kv.2 _ _
            rcases h with h | ⟨s₀, h⟩
            · exact Or.inr (h ▸ hok)
            · exact Or.inr (h ▸ marginsOk_writePayload r s₀ hok)
        · rw [extract_empty_data h1 h2 h3 h4] at hs
          exact Or.inl hs

theorem fold_extract_frame (ds : List Document) (st : DBState) :
    ((ds.foldl (fun s d => (extract_financial_data_to_summaries d.id s).2) st)).documents
        = st.documents ∧
    ((ds.foldl (fun s d => (extract_financial_data_to_summaries d.id s).2) st)).rawData
        = st.rawData := by
  induction ds generalizing st with
  | nil => exact ⟨rfl, rfl⟩
  | cons d ds' ih =>
    rw [List.foldl_cons]
    refine ⟨?_, ?_⟩
    · rw [(ih _).1, (extract_state_frame d.id st).1]
    · rw [(ih _).2, (extract_state_frame d.id st).2.1]

theorem sync_true_frame (st : DBState) :
    (sync_financial_summaries true st).documents = st.documents ∧
    (sync_financial_summaries true st).rawData = st.rawData := by
  unfold sync_financial_summaries
  simp only [if_true]
  exact fold_extract_frame _ _

theorem sync_true_congr {st₁ st₂ : DBState} (hd : st₁.documents = st₂.documents)
    (hr : st₁.rawData = st₂.rawData) :
    sync_financial_summaries true st₁ = sync_financial_summaries true st₂ := by
  have heq : ({ st₁ with summaries := [] } : DBState) = { st₂ with summaries := [] } := by
    cases st₁
    cases st₂
    simp only at hd hr
    simp [hd, hr]
  unfold sync_financial_summaries
  simp only [if_true]
  rw [heq, hd]

/-- C9: running the bulk rebuild (`sync-summaries` with `clean=true`) twice in
a row, with the document and raw-data tables unchanged in between, produces the
identical state both times: each run deletes every summary row and then
re-extracts every confirmed statement document, deterministically. -/
theorem sync_clean_twice_eq_once (st : DBState) :
    sync_financial_summaries true (sync_financial_summaries true st) =
      sync_financial_summaries true st :=
  sync_true_congr (sync_true_frame st).1 (sync_true_frame st).2

theorem c1_extract_eval :
    ((extract_financial_data_to_summaries 1 c1St).2).summaries = [c1Row] := by
  rw [@extract_success_snd 1 c1St c1Doc c1Raw c1Data (by rfl) (by rfl) (by rfl) (by rfl)]
  have hstores : extractStores c1Data = [("MX", c1Info)] := by decide
  show applySummaryBatch (summaryBatch "P1.xlsx" c1Data 1) [] = [c1Row]
  rw [summaryBatch, hstores]
  have hper : summaryPeriodLabel "P1.xlsx" = "2025-P1" := by decide
  have hbatch : mkSummaryRow c1Info (summaryPeriodLabel "P1.xlsx") 1 = c1Row := by
    rw [hper]
    norm_num [mkSummaryRow, c1Info, c1Row]
  simp only [List.map_cons, List.map_nil, hbatch]
  decide

/-- Closed instance of the margin invariant at the concrete extraction above. -/
theorem summary_margin_invariant_witness :
    c1Row ∈ c1St.summaries ∨
      (c1Row.gross_profit = c1Row.total_sales - c1Row.cost_of_sales ∧
       c1Row.gross_margin =
         (if 0 < c1Row.total_sales then c1Row.gross_profit / c1Row.total_sales * 100 else 0) ∧
       c1Row.net_margin =
         (if 0 < c1Row.total_sales then c1Row.net_profit / c1Row.total_sales * 100 else 0)) :=
  summary_margin_invariant 1 c1St c1Row
    (by rw [c1_extract_eval]; exact List.mem_singleton_self c1Row)

/-- C4 counterexample: a row whose only cell is the string `"INGRESOS"` in a
column named `colA` has no concept under the code (no `P` in the column name),
while the claimed rule selects `"INGRESOS"`. -/
theorem concept_selection_counterexample :
    conceptOf [("colA", CellValue.vstr "INGRESOS")] = none ∧
    conceptOfClaim [("colA", CellValue.vstr "INGRESOS")] = some "INGRESOS" :=
  ⟨by decide, by decide⟩

/-- C4 (amended): the extractor's concept is the value of the first column whose
value is a non-empty string, whose name is not a bookkeeping column, and whose
name contains the letter `P`, uppercased and trimmed. -/
theorem concept_selection_amended (row : RawRow) : conceptOf row = conceptOfSpecP row := by
  induction row with
  | nil => rfl
  | cons kv t ih =>
    rcases kv with ⟨key, v⟩
    cases v with
    | vstr s =>
      cases hcase : conceptCellOkP key (.vstr s)
      · have hc : (!s.isEmpty && !(strContains key "Unnamed") && !(strContains key "_hoja")
            && strContains key "P") = false := hcase
        rw [conceptOfSpecP, List.find?_cons_of_neg _ (by simp [hcase])]
        simp only [conceptOf, hc]
        simpa [conceptOfSpecP] using ih
      · have hc : (!s.isEmpty && !(strContains key "Unnamed") && !(strContains key "_hoja")
            && strContains key "P") = true := hcase
        rw [conceptOfSpecP, List.find?_cons_of_pos _ (by simpa using hcase)]
        simp only [conceptOf, hc]
        rfl
    | vnum q =>
      rw [conceptOfSpecP,
        List.find?_cons_of_neg _ (by simp [conceptCellOkP, conceptCellOkClaim])]
      simpa [conceptOfSpecP] using ih
    | vbool b =>
      rw [conceptOfSpecP,
        List.find?_cons_of_neg _ (by simp [conceptCellOkP, conceptCellOkClaim])]
      simpa [conceptOfSpecP] using ih
    | vnull =>
      rw [conceptOfSpecP,
        List.find?_cons_of_neg _ (by simp [conceptCellOkP, conceptCellOkClaim])]
      simpa [conceptOfSpecP] using ih

/-- C5: header cells whose cleaned value contains a denylist entry (such as
`"TOTAL"`) never become store columns; a `"Tienda Centro"` cell in a
non-bookkeeping column becomes a store column named `"TIENDA CENTRO"` whose
seeded extraction has store id `"tienda_centro"`; and `"%"`-valued cells and
bookkeeping columns never become store columns. -/
theorem header_exclusion :
    (∀ k s, (∃ e ∈ excluded_names, strContains (pyUpper (pyStrip s)) e = true) →
        isStoreHeaderCell k (.vstr s) = none) ∧
    (∀ k, strContains k "Unnamed" = false → strContains k "_hoja" = false →
        isStoreHeaderCell k (.vstr "Tienda Centro") = some "TIENDA CENTRO" ∧
        (initStoreInfo "TIENDA CENTRO" k).store_id = "tienda_centro") ∧
    (∀ k v, v = .vstr "%" ∨ strContains k "Unnamed" = true ∨ strContains k "_hoja" = true →
        isStoreHeaderCell k v = none) := by
  refine ⟨?_, ?_, ?_⟩
  · intro k s hex
    simp only [isStoreHeaderCell]
    split_ifs with h1 h2 h3 h4 h5 h6 h7
    any_goals rfl
    exact absurd (by simpa [List.any_eq_true] using hex) h7
  · intro k hU hH
    constructor
    · simp only [isStoreHeaderCell, hU, hH]
      decide
    · rfl
  · intro k v h
    rcases h with h | h | h
    · subst h
      rfl
    · cases v with
      | vstr s => simp [isStoreHeaderCell, h]
      | vnum q => rfl
      | vbool b => rfl
      | vnull => rfl
    · cases v with
      | vstr s => simp [isStoreHeaderCell, h]
      | vnum q => rfl
      | vbool b => rfl
      | vnull => rfl

/-- Closed instances of the header-exclusion rules: `"TOTAL"` and `"%"` are
rejected, `"Tienda Centro"` is accepted and seeded with id `"tienda_centro"`. -/
theorem header_exclusion_witness :
    isStoreHeaderCell "Col1" (.vstr "TOTAL") = none ∧
    isStoreHeaderCell "Col1" (.vstr "Tienda Centro") = some "TIENDA CENTRO" ∧
    (initStoreInfo "TIENDA CENTRO" "Col1").store_id = "tienda_centro" ∧
    isStoreHeaderCell "Col2" (.vstr "%") = none :=
  ⟨header_exclusion.1 "Col1" "TOTAL" ⟨"TOTAL", by decide, by decide⟩,
   (header_exclusion.2.1 "Col1" (by decide) (by decide)).1,
   (header_exclusion.2.1 "Col1" (by decide) (by decide)).2,
   header_exclusion.2.2 "Col2" (.vstr "%") (Or.inl rfl)⟩

/-- C6 counterexample: the concept `"VENTA NETA NOMINA"` contains `"NOMINA"`,
yet the classifier's earlier first-match rule for `"VENTA NETA"` wins: the
value overwrites `total_sales` and `labor_cost` is left untouched. -/
theorem labor_rule_counterexample :
    strContains "VENTA NETA NOMINA" "NOMINA" = true ∧
    (classifyConcept "VENTA NETA NOMINA" 100 (initStoreInfo "TIENDA A" "c")).labor_cost = 0 ∧
    (classifyConcept "VENTA NETA NOMINA" 100 (initStoreInfo "TIENDA A" "c")).total_sales = 100 :=
  ⟨by decide, by decide, by decide⟩

/-- C6 (amended): every concept containing `"NOMINA"`, `"SALARIO"` or
`"SUELDO"` — and not containing `"VENTA NETA"`, which an earlier first-match
rule intercepts — adds its value into `labor_cost` instead of overwriting it. -/
theorem labor_accumulation (c : String) (v : ℚ) (s : StoreInfo)
    (hkw : strContains c "NOMINA" = true ∨ strContains c "SALARIO" = true ∨
      strContains c "SUELDO" = true)
    (hnv : strContains c "VENTA NETA" = false) :
    (classifyConcept c v s).labor_cost = s.labor_cost + v := by
  have hne : ∀ t : String,
      strContains t "NOMINA" = false → strContains t "SALARIO" = false →
      strContains t "SUELDO" = false → (c == t) = false := by
    intro t h1 h2 h3
    cases he : c == t
    · rfl
    · have hct : c = t := by simpa using he
      subst hct
      rcases hkw with h | h | h <;> simp_all
  have g1 : (c == "INGRESOS" || c == "VENTAS" || strContains c "VENTA NETA") = false := by
    rw [hne "INGRESOS" (by decide) (by decide) (by decide),
      hne "VENTAS" (by decide) (by decide) (by decide), hnv]
    rfl
  have g2 : (c == "COSTO DE VENTA" || c == "COSTO DE VENTAS") = false := by
    rw [hne "COSTO DE VENTA" (by decide) (by decide) (by decide),
      hne "COSTO DE VENTAS" (by decide) (by decide) (by decide)]
    rfl
  have g3 : (c == "TOTAL EGRESOS" || c == "EGRESOS TOTALES") = false := by
    rw [hne "TOTAL EGRESOS" (by decide) (by decide) (by decide),
      hne "EGRESOS TOTALES" (by decide) (by decide) (by decide)]
    rfl
  have g4 : (strContains c "NOMINA" || strContains c "SALARIO" ||
      strContains c "SUELDO") = true := by
    rcases hkw with h | h | h <;> simp [h]
  simp [classifyConcept, g1, g2, g3, g4]

/-- Closed instance of labor accumulation: a `"NOMINA ..."` row worth 1500
followed by a `"SUELDOS ..."` row worth 300 leaves `labor_cost = 1800`. -/
theorem labor_accumulation_witness :
    (classifyConcept "SUELDOS ADMINISTRATIVOS" 300
      (classifyConcept "NOMINA SUCURSAL CENTRO" 1500
        (initStoreInfo "TIENDA A" "c"))).labor_cost = 1800 := by
  rw [labor_accumulation "SUELDOS ADMINISTRATIVOS" 300 _
      (Or.inr (Or.inr (by decide))) (by decide),
    labor_accumulation "NOMINA SUCURSAL CENTRO" 1500 _
      (Or.inl (by decide)) (by decide)]
  norm_num [initStoreInfo]

theorem correlation_coefficient_def (pts : List (ℚ × ℚ)) :
    correlation_coefficient pts =
      if 2 ≤ (pts.map Prod.fst).length ∧ 2 ≤ (pts.map Prod.snd).length ∧
          varSum (pts.map Prod.fst) * varSum (pts.map Prod.snd) ≠ 0 then
        (covSum (pts.map Prod.fst) (pts.map Prod.snd) : ℝ) /
          Real.sqrt ((varSum (pts.map Prod.fst) * varSum (pts.map Prod.snd) : ℚ) : ℝ)
      else 0 := rfl

theorem sum_of_all_eq {l : List ℚ} {c : ℚ} (h : ∀ x ∈ l, x = c) :
    l.sum = c * l.length := by
  induction l with
  | nil => simp
  | cons a t ih =>
    rw [List.sum_cons, h a (List.mem_cons_self a t),
      ih (fun x hx => h x (List.mem_cons_of_mem a hx)), List.length_cons]
    push_cast
    ring

theorem meanQ_of_all_eq {l : List ℚ} {c : ℚ} (hl : l ≠ []) (h : ∀ x ∈ l, x = c) :
    meanQ l = c := by
  have hn : (l.length : ℚ) ≠ 0 := by
    have := List.length_pos.mpr hl
    positivity
  rw [meanQ, sum_of_all_eq h]
  field_simp

theorem varSum_of_all_eq {l : List ℚ} {c : ℚ} (h : ∀ x ∈ l, x = c) : varSum l = 0 := by
  cases l with
  | nil => rfl
  | cons a t =>
    apply List.sum_eq_zero
    intro x hx
    rcases List.mem_map.mp hx with ⟨d, hd, rfl⟩
    rcases List.mem_map.mp hd with ⟨y, hy, rfl⟩
    rw [h y hy, meanQ_of_all_eq (List.cons_ne_nil a t) h]
    ring

/-- C7: the chart's correlation coefficient is `0` for fewer than two stores,
is `0` whenever all per-store sales coincide (the zero-variance case, where
`np.corrcoef` would return NaN), and otherwise equals the Pearson quotient of
the centered cross sum by the square root of the product of centered square
sums.  The modelled value is a total real: no NaN and no exception escape. -/
theorem correlation_boundary (pts : List (ℚ × ℚ)) :
    (pts.length < 2 → correlation_coefficient pts = 0) ∧
    (∀ c, (∀ x ∈ pts.map Prod.fst, x = c) → correlation_coefficient pts = 0) ∧
    (2 ≤ pts.length → varSum (pts.map Prod.fst) * varSum (pts.map Prod.snd) ≠ 0 →
      correlation_coefficient pts =
        (covSum (pts.map Prod.fst) (pts.map Prod.snd) : ℝ) /
          Real.sqrt ((varSum (pts.map Prod.fst) * varSum (pts.map Prod.snd) : ℚ) : ℝ)) := by
  refine ⟨?_, ?_, ?_⟩
  · intro h
    rw [correlation_coefficient_def, if_neg]
    rintro ⟨h1, -, -⟩
    rw [List.length_map] at h1
    omega
  · intro c hc
    have hv := varSum_of_all_eq hc
    rw [correlation_coefficient_def, if_neg]
    rintro ⟨-, -, hne⟩
    exact hne (by rw [hv, zero_mul])
  · intro h2 hne
    rw [correlation_coefficient_def,
      if_pos ⟨by rw [List.length_map]; exact h2, by rw [List.length_map]; exact h2, hne⟩]

/-- Closed instances of the correlation boundary: one single store, and two
stores with identical sales, both yield coefficient `0`. -/
theorem correlation_boundary_witness :
    correlation_coefficient [((5 : ℚ), (3 : ℚ))] = 0 ∧
    correlation_coefficient [((4 : ℚ), (1 : ℚ)), ((4 : ℚ), (9 : ℚ))] = 0 :=
  ⟨(correlation_boundary [(5, 3)]).1 (by norm_num),
   (correlation_boundary [(4, 1), (4, 9)]).2.1 4 (by decide)⟩

theorem pRunAt_cons_succ (c : Char) (t : List Char) (i : ℕ) :
    pRunAt (c :: t) (i + 1) ↔ pRunAt t i := by
  simp [pRunAt]

theorem pRunAt_zero (c : Char) (t : List Char) :
    pRunAt (c :: t) 0 ↔ c = 'P' ∧ ((t[0]?).map Char.isDigit).getD false = true := by
  simp [pRunAt]

theorem findPnum_eq_none_iff (cs : List Char) :
    findPnum cs = none ↔ ∀ i, ¬ pRunAt cs i := by
  induction cs with
  | nil =>
    simp [findPnum, pRunAt]
  | cons c t ih =>
    have hsplit : (∀ i, ¬ pRunAt (c :: t) i) ↔
        (¬ pRunAt (c :: t) 0 ∧ ∀ i, ¬ pRunAt t i) := by
      constructor
      · intro h
        exact ⟨h 0, fun i hp => h (i + 1) ((pRunAt_cons_succ c t i).mpr hp)⟩
      · rintro ⟨h0, h⟩ i
        cases i with
        | zero => exact h0
        | succ n => exact fun hp => h n ((pRunAt_cons_succ c t n).mp hp)
    rw [hsplit]
    by_cases hc : c = 'P'
    · subst hc
      have hfp : findPnum ('P' :: t) =
          (if (t.takeWhile Char.isDigit).isEmpty then findPnum t
           else some (t.takeWhile Char.isDigit)) := by
        simp [findPnum]
      cases hds : (t.takeWhile Char.isDigit).isEmpty
      · have hhead : ((t[0]?).map Char.isDigit).getD false = true := by
          cases t with
          | nil => simp [List.takeWhile] at hds
          | cons d t' =>
            by_cases hd : Char.isDigit d
            · simp [hd]
            · simp [List.takeWhile_cons, hd] at hds
        rw [hfp, hds]
        simp [pRunAt_zero, hhead]
      · have hhead : ((t[0]?).map Char.isDigit).getD false = false := by
          cases t with
          | nil => simp
          | cons d t' =>
            by_cases hd : Char.isDigit d
            · simp [List.takeWhile_cons, hd] at hds
            · simp [hd]
        rw [hfp, hds]
        simp [pRunAt_zero, hhead, ih]
    · have hfp : findPnum (c :: t) = findPnum t := by
        have hb : (c == 'P') = false := by simp [hc]
        simp [findPnum, hb]
      rw [hfp]
      simp [pRunAt_zero, hc, ih]

theorem findPnum_some_digits {cs ds : List Char} (h : findPnum cs = some ds) :
    ds ≠ [] ∧ ∀ c ∈ ds, c.isDigit = true := by
  induction cs with
  | nil => simp [findPnum] at h
  | cons c t ih =>
    by_cases hc : c = 'P'
    · subst hc
      rw [show findPnum ('P' :: t) =
          (if (t.takeWhile Char.isDigit).isEmpty then findPnum t
           else some (t.takeWhile Char.isDigit)) from by simp [findPnum]] at h
      cases hds : (t.takeWhile Char.isDigit).isEmpty
      · rw [hds] at h
        simp only [if_false, Bool.false_eq_true, Option.some.injEq] at h
        refine ⟨?_, ?_⟩
        · intro he
          rw [h, he] at hds
          simp at hds
        · intro x hx
          rw [← h] at hx
          exact List.mem_takeWhile_imp hx
      · rw [hds] at h
        simp only [if_true] at h
        exact ih h
    · rw [show findPnum (c :: t) = findPnum t from by
        have hb : (c == 'P') = false := by simp [hc]
        simp [findPnum, hb]] at h
      exact ih h

theorem pRunAt_oob {cs : List Char} {i : ℕ} (h : cs.length ≤ i) : ¬ pRunAt cs i := by
  intro hp
  rw [pRunAt, List.getElem?_eq_none h] at hp
  exact absurd hp.1 (by simp)

/-- C8 counterexample: for `"ventas_enero.xlsx"` the document-side detector
returns the Spanish month `"Enero"`, while the summary-side label is the
fallback `"2025-P00"` — the two period derivations do not agree, and the
summary label neither uses the month name nor the current calendar month. -/
theorem period_label_counterexample :
    summaryPeriodLabel "ventas_enero.xlsx" = "2025-P00" ∧
    detect_period_from_filename "ventas_enero.xlsx" "October 2025" = "Enero" ∧
    ("2025-P00" : String) ≠ "Enero" :=
  ⟨by decide, by decide, by decide⟩

/-- C8 (amended): the document's period label comes from
`detect_period_from_filename` (`P<n>` codes, Spanish months, years, current
date), but the MonthlySummary period label is derived independently: it is
`"2025-P"` followed by the digits after the first case-sensitive `P` of the
filename, and falls back to `"2025-P00"` — not to a label for the current
month — when no `P` is followed by a digit anywhere in the filename. -/
theorem period_label_amended (fn : String) :
    (∀ ds, findPnum fn.toList = some ds →
      summaryPeriodLabel fn = "2025-P" ++ String.mk ds ∧
        ds ≠ [] ∧ ∀ c ∈ ds, c.isDigit = true) ∧
    ((∀ i < fn.toList.length, ¬ pRunAt fn.toList i) →
      summaryPeriodLabel fn = "2025-P00") := by
  constructor
  · intro ds h
    refine ⟨?_, findPnum_some_digits h⟩
    rw [summaryPeriodLabel, summaryPeriodNum, h]
  · intro h
    have hall : ∀ i, ¬ pRunAt fn.toList i := by
      intro i
      by_cases hi : i < fn.toList.length
      · exact h i hi
      · exact pRunAt_oob (Nat.le_of_not_lt hi)
    rw [summaryPeriodLabel, summaryPeriodNum, (findPnum_eq_none_iff fn.toList).mpr hall]
    rfl

/-- Closed instances of the amended period rule: a filename with `P11` gets
label `"2025-P11"`, one without any `P`-digit occurrence gets `"2025-P00"`. -/
theorem period_label_amended_witness :
    summaryPeriodLabel "ESTADO P11.xlsx" = "2025-P" ++ String.mk ['1', '1'] ∧
    summaryPeriodLabel "data.xlsx" = "2025-P00" :=
  ⟨((period_label_amended "ESTADO P11.xlsx").1 ['1', '1'] (by decide)).1,
   (period_label_amended "data.xlsx").2 (by decide)⟩

/-- C3 counterexample: on the scenario's literal sheet the pipeline produces
all-zero summaries — Tienda Centro gets `total_sales = 0`, not the expected
`10000`, because the concept search requires a `P` in the column name and the
store values are read from the store's own header column. -/
theorem end_to_end_counterexample :
    ((extract_financial_data_to_summaries 1 c3LitSt).2).summaries = [c3ZeroC, c3ZeroN] ∧
    c3ZeroC.total_sales = 0 ∧ ((0 : ℚ) ≠ 10000) := by
  refine ⟨?_, by decide, by decide⟩
  rw [@extract_success_snd 1 c3LitSt c3Doc c3LitRaw c3LitData (by rfl) (by rfl)
    (by rfl) (by rfl)]
  show applySummaryBatch
    (summaryBatch "ESTADO DE RESULTADOS P11.xlsx" c3LitData 1) [] = [c3ZeroC, c3ZeroN]
  have hstores : extractStores c3LitData =
      [("TIENDA CENTRO", c3InfoC0), ("TIENDA NORTE", c3InfoN0)] := by decide
  rw [summaryBatch, hstores]
  have hper : summaryPeriodLabel "ESTADO DE RESULTADOS P11.xlsx" = "2025-P11" := by decide
  have hC : mkSummaryRow c3InfoC0 (summaryPeriodLabel "ESTADO DE RESULTADOS P11.xlsx") 1
      = c3ZeroC := by
    rw [hper]
    norm_num [mkSummaryRow, c3InfoC0, c3ZeroC]
  have hN : mkSummaryRow c3InfoN0 (summaryPeriodLabel "ESTADO DE RESULTADOS P11.xlsx") 1
      = c3ZeroN := by
    rw [hper]
    norm_num [mkSummaryRow, c3InfoN0, c3ZeroN]
  simp only [List.map_cons, List.map_nil, hC, hN]
  decide

/-- C3 (amended): with the concept column named `P11` and the store values in
the stores' own header columns, extraction plus reconciliation produces exactly
Tienda Centro `{total_sales 10000, cost_of_sales 3000, gross_profit 7000,
gross_margin 70}` and Tienda Norte `{8000, 2000, 6000, 75}`. -/
theorem end_to_end_amended :
    ((extract_financial_data_to_summaries 1 c3FixSt).2).summaries = [c3RowC, c3RowN] := by
  rw [@extract_success_snd 1 c3FixSt c3Doc c3FixRaw c3FixData (by rfl) (by rfl)
    (by rfl) (by rfl)]
  show applySummaryBatch
    (summaryBatch "ESTADO DE RESULTADOS P11.xlsx" c3FixData 1) [] = [c3RowC, c3RowN]
  have hstores : extractStores c3FixData =
      [("TIENDA CENTRO", c3InfoC), ("TIENDA NORTE", c3InfoN)] := by decide
  rw [summaryBatch, hstores]
  have hper : summaryPeriodLabel "ESTADO DE RESULTADOS P11.xlsx" = "2025-P11" := by decide
  have hC : mkSummaryRow c3InfoC (summaryPeriodLabel "ESTADO DE RESULTADOS P11.xlsx") 1
      = c3RowC := by
    rw [hper]
    norm_num [mkSummaryRow, c3InfoC, c3RowC]
  have hN : mkSummaryRow c3InfoN (summaryPeriodLabel "ESTADO DE RESULTADOS P11.xlsx") 1
      = c3RowN := by
    rw [hper]
    norm_num [mkSummaryRow, c3InfoN, c3RowN]
  simp only [List.map_cons, List.map_nil, hC, hN]
  decide
